import Mathlib

/-!
Shallow embedding of the tm-backend task service core: the Task data model
and its save middleware (Task.model), the ownership-scoped CRUD and bulk
operations (task.service.js), the retry-aware transaction executor
(transaction.util.js), the websocket event publisher (websocket.service.js)
and the session validity oracle (user.service.js / User.model).

Object ids and timestamps are modelled as natural numbers; timestamps are
milliseconds since epoch unless noted otherwise.  The persistent store is a
list of task documents; MongoDB guarantees `_id` uniqueness, so theorems
that count documents carry a nodup hypothesis on stored ids.
-/

namespace TmBackend

/-- Task status enum from Task.model (strings pending, in-progress, completed). -/
inductive TaskStatus where
  | pending
  | inProgress
  | completed
deriving DecidableEq, Repr

/-- Task priority enum from Task.model (strings low, medium, high, urgent). -/
inductive TaskPriority where
  | low
  | medium
  | high
  | urgent
deriving DecidableEq, Repr

/-- String form of a status, as stored by MongoDB. -/
def TaskStatus.toStr : TaskStatus → String
  | .pending => "pending"
  | .inProgress => "in-progress"
  | .completed => "completed"

/-- A task document as persisted by the Task mongoose model.  MongoDB object
ids are modelled as naturals; `user` is the owning principal's id;
`completedAt` and `dueDate` are optional timestamps (null = none). -/
structure Task where
  id : Nat
  user : Nat
  title : String
  description : String
  status : TaskStatus
  priority : TaskPriority
  dueDate : Option Nat
  completedAt : Option Nat
  tags : List String
  createdAt : Nat
  updatedAt : Nat
deriving DecidableEq, Repr

/-- A thrown JavaScript error value: the message, the optional MongoDB
server error code, and the driver error labels.  `hasErrorLabelOwn` records
whether `hasErrorLabel` is an own property of the error object (the check
`error.hasOwnProperty('hasErrorLabel')` performed by isRetryableError). -/
structure JsError where
  message : String
  code : Option Int := none
  hasErrorLabelOwn : Bool := false
  errorLabels : List String := []
deriving DecidableEq, Repr

/-- A value thrown out of the retry loop: either a real error object or the
JavaScript `undefined` that `throw lastError` rethrows when the loop body
never ran. -/
inductive Thrown where
  | err (e : JsError)
  | jsUndefined
deriving DecidableEq, Repr

/-- Error thrown by getTaskById when no document has the requested id. -/
def taskNotFoundError : JsError := { message := "Task not found" }

/-- Error thrown by getTaskById on a document owned by another principal. -/
def accessDeniedAccessError : JsError :=
  { message := "Access denied: You can only access your own tasks" }

/-- Error thrown by updateTask and markTaskAsCompleted on a document owned by
another principal. -/
def accessDeniedUpdateError : JsError :=
  { message := "Access denied: You can only update your own tasks" }

/-- Error thrown by deleteTask on a document owned by another principal. -/
def accessDeniedDeleteError : JsError :=
  { message := "Access denied: You can only delete your own tasks" }

/-- Error thrown by markTaskAsCompleted when the task is already completed. -/
def alreadyCompletedError : JsError := { message := "Task is already completed" }

/-- Error thrown by the bulk ownership pre-check when the matched count
differs from the requested count. -/
def someTasksNotFoundError : JsError :=
  { message := "Some tasks not found or access denied" }

/-- Event names emitted by websocket.service. -/
inductive EventName where
  | task_created
  | task_updated
  | task_deleted
deriving DecidableEq, Repr

/-- An emitted socket.io event: its name and the private room it targets.
Rooms are keyed by the owning principal id (JS room string user_userId). -/
structure Event where
  name : EventName
  room : Nat
deriving DecidableEq, Repr

/-- A connected websocket session.  On connection the handler joins the room
of the authenticated user (socket.join of user_userId). -/
structure Session where
  sid : Nat
  userId : Nat
deriving DecidableEq, Repr

/-- Session ids that receive an event: io.to(room).emit delivers to every
socket that joined the room. -/
def deliveredSessions (sessions : List Session) (e : Event) : List Nat :=
  (sessions.filter (fun s => s.userId == e.room)).map (fun s => s.sid)

/-- Result of one service operation: the value or thrown error, the store
after the operation, and the websocket events emitted on the way out. -/
structure OpResult (α : Type) where
  result : Except Thrown α
  store : List Task
  events : List Event

/-- Mongoose pre-save middleware on Task: when the status path was modified,
set completedAt to now if the status became completed and completedAt is
unset, and clear completedAt if the status is not completed. -/
def taskPreSaveHook (statusModified : Bool) (now : Nat) (t : Task) : Task :=
  if statusModified then
    if t.status == .completed && t.completedAt.isNone then
      { t with completedAt := some now }
    else if t.status != .completed && t.completedAt.isSome then
      { t with completedAt := none }
    else t
  else t

/-- Persisting a task document: run the pre-save middleware, then let the
timestamps option refresh updatedAt. -/
def saveTask (statusModified : Bool) (now : Nat) (t : Task) : Task :=
  let t1 := taskPreSaveHook statusModified now t
  { t1 with updatedAt := now }

/-- Task.findById: first (unique) document with the given id. -/
def findById (store : List Task) (taskId : Nat) : Option Task :=
  store.find? (fun t => t.id == taskId)

/-- Task instance method isOwnedBy: string equality of the owner id. -/
def Task.isOwnedBy (t : Task) (userId : Nat) : Bool :=
  t.user == userId

/-- Replace the document with the given id by its saved version. -/
def replaceTask (store : List Task) (taskId : Nat) (t' : Task) : List Task :=
  store.map (fun u => if u.id == taskId then t' else u)

/-- Fields accepted by createTask after validation, with the defaults the
service destructuring applies (status pending, priority medium). -/
structure CreateData where
  title : String
  description : String
  status : TaskStatus := .pending
  priority : TaskPriority := .medium
  dueDate : Option Nat := none
  tags : List String := []
deriving DecidableEq, Repr

/-- TaskService.createTask: build the new document (completedAt defaults to
null), save it (the constructor marks status as modified on a new document)
and emit task_created to the owner's room. -/
def createTask (store : List Task) (d : CreateData) (userId : Nat)
    (newId now : Nat) : OpResult Task :=
  let t0 : Task :=
    { id := newId, user := userId, title := d.title,
      description := d.description, status := d.status,
      priority := d.priority, dueDate := d.dueDate, completedAt := none,
      tags := d.tags, createdAt := now, updatedAt := now }
  let t1 := saveTask true now t0
  { result := .ok t1, store := store ++ [t1],
    events := [{ name := .task_created, room := userId }] }

/-- TaskService.getTaskById: find, then ownership check; reads mutate
nothing and emit nothing. -/
def getTaskById (store : List Task) (taskId userId : Nat) : OpResult Task :=
  match findById store taskId with
  | none => { result := .error (.err taskNotFoundError), store := store, events := [] }
  | some t =>
    if t.isOwnedBy userId then
      { result := .ok t, store := store, events := [] }
    else
      { result := .error (.err accessDeniedAccessError), store := store, events := [] }

/-- Partial update payload, mirroring the updateTaskSchema body: every field
optional; dueDate may be set to null.  The service copies each provided key
onto the document. -/
structure UpdateData where
  title : Option String := none
  description : Option String := none
  status : Option TaskStatus := none
  priority : Option TaskPriority := none
  dueDate : Option (Option Nat) := none
  tags : Option (List String) := none
deriving DecidableEq, Repr

/-- Copy every provided update field onto the document (the forEach over
Object.keys in updateTask, and the $set document of updateMany). -/
def applyUpdate (u : UpdateData) (t : Task) : Task :=
  { t with
    title := u.title.getD t.title,
    description := u.description.getD t.description,
    status := u.status.getD t.status,
    priority := u.priority.getD t.priority,
    dueDate := u.dueDate.getD t.dueDate,
    tags := u.tags.getD t.tags }

/-- Whether the update marks the status path modified: mongoose records a
modification only when the assigned value differs from the stored one. -/
def statusModifiedBy (u : UpdateData) (t : Task) : Bool :=
  match u.status with
  | some s => s != t.status
  | none => false

/-- TaskService.updateTask: find, ownership check, copy provided fields,
save (running the pre-save middleware) and emit task_updated. -/
def updateTask (store : List Task) (taskId : Nat) (u : UpdateData)
    (userId now : Nat) : OpResult Task :=
  match findById store taskId with
  | none => { result := .error (.err taskNotFoundError), store := store, events := [] }
  | some t =>
    if t.isOwnedBy userId then
      let t2 := saveTask (statusModifiedBy u t) now (applyUpdate u t)
      { result := .ok t2, store := replaceTask store taskId t2,
        events := [{ name := .task_updated, room := userId }] }
    else
      { result := .error (.err accessDeniedUpdateError), store := store, events := [] }

/-- TaskService.deleteTask: find, ownership check, findByIdAndDelete, emit
task_deleted. -/
def deleteTask (store : List Task) (taskId userId : Nat) : OpResult Unit :=
  match findById store taskId with
  | none => { result := .error (.err taskNotFoundError), store := store, events := [] }
  | some t =>
    if t.isOwnedBy userId then
      { result := .ok (), store := store.filter (fun u => u.id != taskId),
        events := [{ name := .task_deleted, room := userId }] }
    else
      { result := .error (.err accessDeniedDeleteError), store := store, events := [] }

/-- TaskService.markTaskAsCompleted: find, ownership check, reject an
already completed task, otherwise run the markAsCompleted instance method
(set status completed and completedAt now, then save) and emit
task_updated.  The status path counts as modified because the guard
guarantees the stored status was not completed. -/
def markTaskAsCompleted (store : List Task) (taskId userId now : Nat) :
    OpResult Task :=
  match findById store taskId with
  | none => { result := .error (.err taskNotFoundError), store := store, events := [] }
  | some t =>
    if t.isOwnedBy userId then
      if t.status == .completed then
        { result := .error (.err alreadyCompletedError), store := store, events := [] }
      else
        let t1 := { t with status := TaskStatus.completed, completedAt := some now }
        let t2 := saveTask (t.status != .completed) now t1
        { result := .ok t2, store := replaceTask store taskId t2,
          events := [{ name := .task_updated, room := userId }] }
    else
      { result := .error (.err accessDeniedUpdateError), store := store, events := [] }

/-- MongoDB server error codes treated as retryable by transaction.util
(isRetryableError): 11000 DuplicateKey, 16500 TransientTransactionError,
17280 WriteConflict, 251 NoSuchTransaction. -/
def retryableErrorCodes : List Int := [11000, 16500, 17280, 251]

/-- Driver error labels treated as retryable by transaction.util. -/
def retryableLabels : List String :=
  ["TransientTransactionError", "UnknownTransactionCommitResult"]

/-- isRetryableError from transaction.util: the error code is in the
retryable list, or the error owns a hasErrorLabel property reporting one of
the retryable labels. -/
def isRetryableError (e : JsError) : Bool :=
  (match e.code with
   | some c => retryableErrorCodes.contains c
   | none => false)
  || retryableLabels.any (fun label =>
       e.hasErrorLabelOwn && e.errorLabels.contains label)

/-- Trace of one run of the retry loop: the outcome, the number of the
attempt on which the loop exited (0 when the loop body never ran), and the
backoff delays slept between attempts, in order. -/
structure RetryTrace (α : Type) where
  outcome : Except Thrown α
  attempts : Nat
  delays : List Nat
deriving Repr

/-- Exiting the retry for-loop without returning from it: throw lastError,
which is JavaScript undefined when no attempt ever ran. -/
def loopExit {α : Type} (lastError : Option JsError) (attempt : Nat) :
    RetryTrace α :=
  match lastError with
  | some e => { outcome := .error (.err e), attempts := attempt - 1, delays := [] }
  | none => { outcome := .error .jsUndefined, attempts := 0, delays := [] }

/-- The for-loop of withRetryableTransaction, from the current attempt
number: while attempt ≤ maxRetries, run the unit of work; on success
return; on a retryable error with budget remaining sleep 2 to the attempt
times 100 milliseconds and retry; otherwise rethrow; past the bound exit
the loop and rethrow lastError.  The first argument of the recursion is
fuel, a termination device only: every call supplies maxRetries + 1 units,
strictly more than the loop can consume, so the zero-fuel branch behaves
like the loop exit and is never reached. -/
def retryLoop {α : Type} (work : Nat → Except JsError α) (maxRetries : Nat) :
    Nat → Nat → Option JsError → RetryTrace α
  | 0, attempt, lastError => loopExit lastError attempt
  | fuel + 1, attempt, lastError =>
    if attempt ≤ maxRetries then
      match work attempt with
      | .ok r => { outcome := .ok r, attempts := attempt, delays := [] }
      | .error e =>
        if isRetryableError e && attempt < maxRetries then
          let rest := retryLoop work maxRetries fuel (attempt + 1) (some e)
          { outcome := rest.outcome, attempts := rest.attempts,
            delays := (2 ^ attempt * 100) :: rest.delays }
        else
          { outcome := .error (.err e), attempts := attempt, delays := [] }
    else loopExit lastError attempt

/-- withRetryableTransaction from transaction.util: run the unit of work in
a transaction for attempts 1 to maxRetries; each attempt that throws aborts
its transaction.  The work function receives the attempt number (the JS
closure ignores it, but it lets a model inject per-attempt failures). -/
def withRetryableTransaction {α : Type} (work : Nat → Except JsError α)
    (maxRetries : Nat) : RetryTrace α :=
  retryLoop work maxRetries (maxRetries + 1) 1 none

/-- The ownership pre-check query of the bulk operations: documents whose
id is in the requested list and whose owner is the caller. -/
def bulkOwnedFilter (store : List Task) (taskIds : List Nat) (userId : Nat) :
    List Task :=
  store.filter (fun t => taskIds.contains t.id && t.user == userId)

/-- Result payload of bulkUpdateTasks. -/
structure BulkUpdateResult where
  message : String
  modifiedCount : Nat
  taskIds : List Nat
deriving DecidableEq, Repr

/-- Result payload of bulkDeleteTasks, with the audit summaries captured
before deletion. -/
structure BulkDeleteResult where
  message : String
  deletedCount : Nat
  deletedTasks : List (Nat × String × TaskStatus)
deriving DecidableEq, Repr

/-- The $set document of the bulk updateMany: the provided fields plus a
fresh updatedAt.  updateMany bypasses the mongoose save middleware, so the
pre-save completedAt adjustment does not run here. -/
def applyBulkUpdate (u : UpdateData) (now : Nat) (t : Task) : Task :=
  { applyUpdate u t with updatedAt := now }

/-- The unit of work of bulkUpdateTasks: verify that every requested id
matches an owned document (matched count = requested count), then update
all matching documents.  The count mismatch throws the single bulk
failure, aborting the transaction. -/
def bulkUpdateCore (store : List Task) (taskIds : List Nat) (u : UpdateData)
    (userId now : Nat) : Except JsError (BulkUpdateResult × List Task) :=
  let tasks := bulkOwnedFilter store taskIds userId
  if tasks.length != taskIds.length then
    .error someTasksNotFoundError
  else
    let newStore := store.map (fun t =>
      if taskIds.contains t.id && t.user == userId then applyBulkUpdate u now t
      else t)
    .ok ({ message := toString tasks.length ++ " tasks updated successfully",
           modifiedCount := tasks.length, taskIds := taskIds }, newStore)

/-- The unit of work of bulkDeleteTasks: same ownership pre-check, then
capture the audit summaries and delete every matching document. -/
def bulkDeleteCore (store : List Task) (taskIds : List Nat) (userId : Nat) :
    Except JsError (BulkDeleteResult × List Task) :=
  let tasks := bulkOwnedFilter store taskIds userId
  if tasks.length != taskIds.length then
    .error someTasksNotFoundError
  else
    let tasksToDelete := tasks.map (fun t => (t.id, t.title, t.status))
    let newStore := store.filter (fun t =>
      !(taskIds.contains t.id && t.user == userId))
    .ok ({ message := toString tasks.length ++ " tasks deleted successfully",
           deletedCount := tasks.length, deletedTasks := tasksToDelete }, newStore)

/-- TaskService.bulkUpdateTasks: the unit of work under
withRetryableTransaction with 3 attempts.  A thrown error leaves the store
as it was (the transaction aborts).  No websocket event is emitted on
either path. -/
def bulkUpdateTasks (store : List Task) (taskIds : List Nat) (u : UpdateData)
    (userId now : Nat) : OpResult BulkUpdateResult :=
  let trace := withRetryableTransaction
    (fun _ => bulkUpdateCore store taskIds u userId now) 3
  match trace.outcome with
  | .ok (r, st) => { result := .ok r, store := st, events := [] }
  | .error e => { result := .error e, store := store, events := [] }

/-- TaskService.bulkDeleteTasks: the unit of work under
withRetryableTransaction with 3 attempts; no event is emitted. -/
def bulkDeleteTasks (store : List Task) (taskIds : List Nat) (userId : Nat) :
    OpResult BulkDeleteResult :=
  let trace := withRetryableTransaction
    (fun _ => bulkDeleteCore store taskIds userId) 3
  match trace.outcome with
  | .ok (r, st) => { result := .ok r, store := st, events := [] }
  | .error e => { result := .error e, store := store, events := [] }

/-- Case-insensitive substring test, the effect of building a RegExp from
the escaped search term with the i flag and testing a field: the lowered
pattern occurs somewhere in the lowered text (an empty pattern matches
everything). -/
def containsCI (hay pat : String) : Bool :=
  pat == "" || (hay.toLower.splitOn pat.toLower).length > 1

/-- Sort keys accepted by the getTasks query schema. -/
inductive SortKey where
  | createdAt
  | updatedAt
  | title
  | status
deriving DecidableEq, Repr

/-- Sort directions accepted by the getTasks query schema. -/
inductive SortOrder where
  | asc
  | desc
deriving DecidableEq, Repr

/-- MongoDB field comparison for the sort stage.  Status values are stored
as strings, so they compare lexicographically. -/
def sortFieldLE (key : SortKey) (a b : Task) : Bool :=
  match key with
  | .createdAt => a.createdAt ≤ b.createdAt
  | .updatedAt => a.updatedAt ≤ b.updatedAt
  | .title => decide (a.title ≤ b.title)
  | .status => decide (a.status.toStr ≤ b.status.toStr)

/-- Comparator handed to the sort stage, honouring the requested order. -/
def sortLE (key : SortKey) (ord : SortOrder) (a b : Task) : Bool :=
  match ord with
  | .asc => sortFieldLE key a b
  | .desc => sortFieldLE key b a

/-- Query options of Task.getTasksByUser, with the defaults the static
method destructures (page 1, limit 10, sort createdAt descending). -/
structure QueryOptions where
  page : Nat := 1
  limit : Nat := 10
  status : Option TaskStatus := none
  priority : Option TaskPriority := none
  dueDate : Option Nat := none
  search : Option String := none
  sortBy : SortKey := .createdAt
  sortOrder : SortOrder := .desc
deriving Repr

/-- The find query getTasksByUser builds: owner scope, optional status and
priority equality, optional dueDate upper bound (a null dueDate never
matches a range query), and the case-insensitive search across title,
description and tags. -/
def matchesQuery (userId : Nat) (o : QueryOptions) (t : Task) : Bool :=
  t.user == userId
  && (match o.status with | some s => t.status == s | none => true)
  && (match o.priority with | some p => t.priority == p | none => true)
  && (match o.dueDate with
      | some d => (match t.dueDate with | some td => td ≤ d | none => false)
      | none => true)
  && (match o.search with
      | some s => containsCI t.title s || containsCI t.description s
          || t.tags.any (fun tag => containsCI tag s)
      | none => true)

/-- Pagination block of the getTasksByUser response. -/
structure Pagination where
  current : Nat
  pages : Nat
  total : Nat
  limit : Nat
deriving DecidableEq, Repr

/-- Response of Task.getTasksByUser. -/
structure ListResult where
  tasks : List Task
  pagination : Pagination
deriving Repr

/-- Math.ceil of a natural division (the pages computation); the schema
bounds limit to at least 1 before the core runs. -/
def ceilDiv (total limit : Nat) : Nat :=
  (total + limit - 1) / limit

/-- Task.getTasksByUser: filter by the query, sort, skip (page-1)*limit,
take limit, and report ceil(total/limit) pages over the matching count. -/
def getTasksByUser (store : List Task) (userId : Nat) (o : QueryOptions) :
    ListResult :=
  let skip := (o.page - 1) * o.limit
  let filtered := store.filter (matchesQuery userId o)
  let sorted := filtered.mergeSort (sortLE o.sortBy o.sortOrder)
  { tasks := (sorted.drop skip).take o.limit,
    pagination := { current := o.page, pages := ceilDiv filtered.length o.limit,
                    total := filtered.length, limit := o.limit } }

/-- The getTasks query schema refinement on limit: a value is accepted only
when it lies in [1, 100] (the validation layer runs before the core). -/
def limitBoundOk (limit : Nat) : Bool :=
  0 < limit && limit ≤ 100

/-- The slice of a user document the session oracle and the password-change
path touch: the credential-changed-at timestamp in milliseconds (null until
set). -/
structure UserDoc where
  id : Nat
  passwordChangedAt : Option Nat
deriving DecidableEq, Repr

/-- Mongoose pre-save middleware on User: when the password path was
modified on an existing document, backdate passwordChangedAt to one second
before now, overwriting any value assigned earlier in the request. -/
def userPreSaveHook (passwordModified isNew : Bool) (nowMs : Nat)
    (u : UserDoc) : UserDoc :=
  if !passwordModified || isNew then u
  else { u with passwordChangedAt := some (nowMs - 1000) }

/-- The credential mutation of AuthService.changePassword once both
password checks have passed: assign passwordChangedAt = new Date(), then
save, which runs the pre-save middleware with the password path modified on
a non-new document. -/
def changePasswordSave (u : UserDoc) (nowMs : Nat) : UserDoc :=
  userPreSaveHook true false nowMs { u with passwordChangedAt := some nowMs }

/-- UserService.passwordChangedAfterJWT: with a recorded change time, the
token is stale when its issued-at (seconds) is strictly before the change
time truncated to seconds; without one the password never changed. -/
def passwordChangedAfterJWT (passwordChangedAt : Option Nat)
    (jwtTimestamp : Nat) : Bool :=
  match passwordChangedAt with
  | some cca => jwtTimestamp < cca / 1000
  | none => false

/-- The completedAt invariant of the data model: a task is completed
exactly when its completion timestamp is set. -/
def completedInv (t : Task) : Prop :=
  t.status = TaskStatus.completed ↔ t.completedAt ≠ none

instance (t : Task) : Decidable (completedInv t) := by
  unfold completedInv
  infer_instance

/-- An update payload with no provided fields. -/
def noUpdate : UpdateData := {}

/-- Sample task owned by principal 7 (used as concrete witness input). -/
def taskA : Task :=
  { id := 1, user := 7, title := "alpha", description := "da",
    status := .pending, priority := .medium, dueDate := none,
    completedAt := none, tags := [], createdAt := 0, updatedAt := 0 }

/-- Second sample task owned by principal 7. -/
def taskB : Task := { taskA with id := 2, title := "beta" }

/-- Sample task owned by the other principal 8. -/
def taskC : Task := { taskA with id := 3, user := 8, title := "gamma" }

/-- Sample store: two tasks of principal 7 and one of principal 8. -/
def sampleStore : List Task := [taskA, taskB, taskC]

/-- A duplicate-key failure as raised by the MongoDB server (code 11000). -/
def duplicateKeyError : JsError :=
  { message := "E11000 duplicate key error", code := some 11000 }

/-- A write-conflict failure as raised inside a transaction (code 17280). -/
def writeConflictError : JsError :=
  { message := "WriteConflict", code := some 17280 }

/-- A unit of work that hits a duplicate-key failure on its first attempt
and succeeds afterwards. -/
def dupThenOkWork : Nat → Except JsError Nat :=
  fun attempt => if attempt == 1 then .error duplicateKeyError else .ok 42

/-- A unit of work that fails with a write conflict on attempts 1 and 2 and
succeeds on attempt 3. -/
def conflictTwiceWork : Nat → Except JsError Nat :=
  fun attempt => if attempt ≤ 2 then .error writeConflictError else .ok 7

/-- A unit of work that always fails with a write conflict. -/
def alwaysConflictWork : Nat → Except JsError Nat :=
  fun _ => .error writeConflictError

/-- Store of 25 tasks owned by principal 7, for the pagination example. -/
def store25 : List Task :=
  (List.range 25).map (fun i =>
    { id := i + 1, user := 7, title := "t", description := "d",
      status := .pending, priority := .medium, dueDate := none,
      completedAt := none, tags := [], createdAt := i, updatedAt := i })

/-- Query options selecting a given 1-based page with limit 10. -/
def pageOpts (p : Nat) : QueryOptions := { page := p, limit := 10 }

/-- Sample user document for the session oracle witnesses. -/
def userU : UserDoc := { id := 1, passwordChangedAt := none }

/-- The exponential backoff schedule: the sleeps of k consecutive retries
whose first failed attempt is numbered a, each 2 to the attempt times
100 milliseconds. -/
def backoffDelays : Nat → Nat → List Nat
  | _, 0 => []
  | a, k + 1 => 2 ^ a * 100 :: backoffDelays (a + 1) k

theorem findById_id_eq {store : List Task} {taskId : Nat} {T : Task}
    (h : findById store taskId = some T) : T.id = taskId := by
  have h' := List.find?_some h
  simpa using h'

theorem findById_mem {store : List Task} {taskId : Nat} {T : Task}
    (h : findById store taskId = some T) : T ∈ store :=
  List.mem_of_find?_eq_some h

theorem findById_replaceTask (store : List Task) (taskId : Nat) (t' : Task)
    (hid : t'.id = taskId) (h : (findById store taskId).isSome) :
    findById (replaceTask store taskId t') taskId = some t' := by
  induction store with
  | nil => simp [findById] at h
  | cons a as ih =>
    by_cases ha : a.id = taskId
    · simp [findById, replaceTask, ha, hid]
    · have ha' : (a.id == taskId) = false := by simpa using ha
      simp only [findById, replaceTask, List.map_cons, List.find?_cons, ha',
        if_false, Bool.false_eq_true] at h ⊢
      exact ih h

/-- C6: a principal can never read, update, delete, or complete another
principal's task: when the document exists but belongs to someone else all
four single-entity operations fail with the access-denied error, when it is
absent they fail with the not-found error, and in both cases the store is
unchanged. -/
theorem ownership_isolation (store : List Task) (taskId x now : Nat)
    (u : UpdateData) :
    (∀ T, findById store taskId = some T → T.user ≠ x →
      (getTaskById store taskId x).result = .error (.err accessDeniedAccessError)
      ∧ (getTaskById store taskId x).store = store
      ∧ (updateTask store taskId u x now).result = .error (.err accessDeniedUpdateError)
      ∧ (updateTask store taskId u x now).store = store
      ∧ (deleteTask store taskId x).result = .error (.err accessDeniedDeleteError)
      ∧ (deleteTask store taskId x).store = store
      ∧ (markTaskAsCompleted store taskId x now).result = .error (.err accessDeniedUpdateError)
      ∧ (markTaskAsCompleted store taskId x now).store = store)
    ∧ (findById store taskId = none →
      (getTaskById store taskId x).result = .error (.err taskNotFoundError)
      ∧ (getTaskById store taskId x).store = store
      ∧ (updateTask store taskId u x now).result = .error (.err taskNotFoundError)
      ∧ (updateTask store taskId u x now).store = store
      ∧ (deleteTask store taskId x).result = .error (.err taskNotFoundError)
      ∧ (deleteTask store taskId x).store = store
      ∧ (markTaskAsCompleted store taskId x now).result = .error (.err taskNotFoundError)
      ∧ (markTaskAsCompleted store taskId x now).store = store) := by
  constructor
  · intro T hfind hne
    have hb : (T.user == x) = false := by simpa using hne
    simp [getTaskById, updateTask, deleteTask, markTaskAsCompleted, hfind,
      Task.isOwnedBy, hb]
  · intro hfind
    simp [getTaskById, updateTask, deleteTask, markTaskAsCompleted, hfind]

theorem ownership_isolation_witness :
    (getTaskById sampleStore 3 7).result = .error (.err accessDeniedAccessError)
    ∧ (deleteTask sampleStore 3 7).store = sampleStore
    ∧ (markTaskAsCompleted sampleStore 3 7 5).result = .error (.err accessDeniedUpdateError)
    ∧ (updateTask sampleStore 99 noUpdate 7 5).result = .error (.err taskNotFoundError) := by
  have h1 := (ownership_isolation sampleStore 3 7 5 noUpdate).1 taskC (by decide) (by decide)
  have h2 := (ownership_isolation sampleStore 99 7 5 noUpdate).2 (by decide)
  exact ⟨h1.1, h1.2.2.2.2.2.1, h1.2.2.2.2.2.2.1, h2.2.2.1⟩

/-- C8: marking a task complete twice: the first call of its owner succeeds,
setting status to completed and completedAt to the current time; the second
call fails with the already-completed error and leaves the stored document,
including its completedAt, exactly as the first call wrote it. -/
theorem markComplete_twice (store : List Task) (taskId uid now1 now2 : Nat)
    (T : Task) (hfind : findById store taskId = some T) (hown : T.user = uid)
    (hnc : T.status ≠ .completed) :
    (markTaskAsCompleted store taskId uid now1).result =
      .ok { T with status := .completed, completedAt := some now1, updatedAt := now1 }
    ∧ findById (markTaskAsCompleted store taskId uid now1).store taskId =
      some { T with status := .completed, completedAt := some now1, updatedAt := now1 }
    ∧ (markTaskAsCompleted (markTaskAsCompleted store taskId uid now1).store taskId uid now2).result
      = .error (.err alreadyCompletedError)
    ∧ (markTaskAsCompleted (markTaskAsCompleted store taskId uid now1).store taskId uid now2).store
      = (markTaskAsCompleted store taskId uid now1).store := by
  have hb : (T.user == uid) = true := by simpa using hown
  have hs : (T.status == TaskStatus.completed) = false := by simpa using hnc
  have hsm : (T.status != TaskStatus.completed) = true := by simp [bne, hs]
  have hfirst : markTaskAsCompleted store taskId uid now1 =
      { result := .ok { T with status := .completed, completedAt := some now1, updatedAt := now1 },
        store := replaceTask store taskId
          { T with status := .completed, completedAt := some now1, updatedAt := now1 },
        events := [{ name := .task_updated, room := uid }] } := by
    simp [markTaskAsCompleted, hfind, Task.isOwnedBy, hb, hs, hsm, saveTask,
      taskPreSaveHook]
  have hid := findById_id_eq hfind
  have hfind2 : findById (markTaskAsCompleted store taskId uid now1).store taskId =
      some { T with status := .completed, completedAt := some now1, updatedAt := now1 } := by
    rw [hfirst]
    exact findById_replaceTask store taskId _ (by simpa using hid) (by rw [hfind]; rfl)
  refine ⟨by rw [hfirst], hfind2, ?_, ?_⟩ <;>
    (generalize hst : (markTaskAsCompleted store taskId uid now1).store = st2 at hfind2 ⊢;
     simp [markTaskAsCompleted, hfind2, Task.isOwnedBy, hb])

theorem markComplete_twice_witness :
    (markTaskAsCompleted sampleStore 1 7 11).result =
      .ok { taskA with status := .completed, completedAt := some 11, updatedAt := 11 }
    ∧ (markTaskAsCompleted (markTaskAsCompleted sampleStore 1 7 11).store 1 7 12).result
      = .error (.err alreadyCompletedError)
    ∧ findById (markTaskAsCompleted sampleStore 1 7 11).store 1 =
      some { taskA with status := .completed, completedAt := some 11, updatedAt := 11 } := by
  have h := markComplete_twice sampleStore 1 7 11 12 taskA (by decide) (by decide) (by decide)
  exact ⟨h.1, h.2.2.1, h.2.1⟩

/-- C5 counterexample: with the change-password save running at wall time
5000 ms, the stored credential-changed-at is backdated to 4000 ms; a token
issued at second 4 was issued before the change moment minus one second
(3 seconds), so the claim would reject it, yet the oracle accepts it. -/
theorem session_oracle_spec_gap :
    (changePasswordSave userU 5000).passwordChangedAt = some 4000
    ∧ (4 - 1) * 1000 < 5000
    ∧ passwordChangedAfterJWT (some 4000) 4 = false := by
  decide

/-- C5 (amended): the oracle rejects a token exactly when its issued-at
second is strictly before the stored credential-changed-at truncated to
seconds, and never rejects when no change time is recorded; the
change-password save path stores the wall-clock change time backdated by
one second; consequently a token with issued-at T is rejected exactly when
the change happened at or after second T + 2. -/
theorem session_invalidation (u : UserDoc) (W T : Nat) (hW : 1000 ≤ W) :
    (∀ cca iat, passwordChangedAfterJWT (some cca) iat = true ↔ iat < cca / 1000)
    ∧ (∀ iat, passwordChangedAfterJWT none iat = false)
    ∧ (changePasswordSave u W).passwordChangedAt = some (W - 1000)
    ∧ (passwordChangedAfterJWT (changePasswordSave u W).passwordChangedAt T = true
        ↔ (T + 2) * 1000 ≤ W) := by
  refine ⟨?_, ?_, ?_, ?_⟩
  · intro cca iat
    simp [passwordChangedAfterJWT]
  · intro iat
    simp [passwordChangedAfterJWT]
  · simp [changePasswordSave, userPreSaveHook]
  · simp [changePasswordSave, userPreSaveHook, passwordChangedAfterJWT]
    rw [Nat.lt_iff_add_one_le, Nat.le_div_iff_mul_le (by norm_num : (0:ℕ) < 1000)]
    omega

theorem session_invalidation_witness :
    (changePasswordSave userU 5000).passwordChangedAt = some 4000
    ∧ passwordChangedAfterJWT (changePasswordSave userU 5000).passwordChangedAt 1 = true := by
  have h := session_invalidation userU 5000 1 (by norm_num)
  refine ⟨?_, h.2.2.2.mpr (by norm_num)⟩
  have h3 := h.2.2.1
  norm_num at h3
  exact h3

theorem retryLoop_ok {α : Type} (work : Nat → Except JsError α)
    (m fuel a : Nat) (l : Option JsError) (r : α) (ha : a ≤ m)
    (hw : work a = .ok r) :
    retryLoop work m (fuel + 1) a l =
      { outcome := .ok r, attempts := a, delays := [] } := by
  simp [retryLoop, ha, hw]

theorem retryLoop_stop {α : Type} (work : Nat → Except JsError α)
    (m fuel a : Nat) (l : Option JsError) (e : JsError) (ha : a ≤ m)
    (hw : work a = .error e) (hstop : isRetryableError e = false ∨ m ≤ a) :
    retryLoop work m (fuel + 1) a l =
      { outcome := .error (.err e), attempts := a, delays := [] } := by
  have hcond : (isRetryableError e && decide (a < m)) = false := by
    rcases hstop with h | h
    · simp [h]
    · simp [Nat.not_lt.mpr h]
  simp [retryLoop, ha, hw, hcond]

theorem retryLoop_retry {α : Type} (work : Nat → Except JsError α)
    (m fuel a : Nat) (l : Option JsError) (e : JsError) (ha : a ≤ m)
    (hw : work a = .error e) (hr : isRetryableError e = true) (hlt : a < m) :
    retryLoop work m (fuel + 1) a l =
      { outcome := (retryLoop work m fuel (a + 1) (some e)).outcome,
        attempts := (retryLoop work m fuel (a + 1) (some e)).attempts,
        delays := 2 ^ a * 100 :: (retryLoop work m fuel (a + 1) (some e)).delays } := by
  simp [retryLoop, ha, hw, hr, hlt]

theorem isRetryableError_business (e : JsError) (hc : e.code = none)
    (hl : e.hasErrorLabelOwn = false) : isRetryableError e = false := by
  simp [isRetryableError, hc, hl]

theorem withRetryableTransaction_first_error {α : Type}
    (work : Nat → Except JsError α) (N : Nat) (e : JsError) (hN : 1 ≤ N)
    (hw : work 1 = .error e) (hnr : isRetryableError e = false) :
    withRetryableTransaction work N =
      { outcome := .error (.err e), attempts := 1, delays := [] } := by
  unfold withRetryableTransaction
  exact retryLoop_stop work N N 1 none e hN hw (Or.inl hnr)

theorem withRetryableTransaction_first_ok {α : Type}
    (work : Nat → Except JsError α) (N : Nat) (r : α) (hN : 1 ≤ N)
    (hw : work 1 = .ok r) :
    withRetryableTransaction work N =
      { outcome := .ok r, attempts := 1, delays := [] } := by
  unfold withRetryableTransaction
  exact retryLoop_ok work N N 1 none r hN hw

/-- C3 (amended): failures thrown as plain business errors — carrying no
MongoDB error code and no driver label property, which covers not-found,
access-denied, already-completed and the bulk ownership failure — are not
classified retryable, and the retry executor surfaces them on the first
attempt with no retry and no backoff sleep; a MongoDB duplicate-key
failure (code 11000), by contrast, is classified retryable. -/
theorem retry_terminal_business {α : Type} (work : Nat → Except JsError α)
    (N : Nat) (e : JsError) (hc : e.code = none)
    (hl : e.hasErrorLabelOwn = false) (hw : work 1 = .error e) (hN : 1 ≤ N) :
    isRetryableError e = false
    ∧ withRetryableTransaction work N =
        { outcome := .error (.err e), attempts := 1, delays := [] }
    ∧ isRetryableError taskNotFoundError = false
    ∧ isRetryableError accessDeniedAccessError = false
    ∧ isRetryableError alreadyCompletedError = false
    ∧ isRetryableError someTasksNotFoundError = false
    ∧ (∀ e', e'.code = some 11000 → isRetryableError e' = true) := by
  have h0 := isRetryableError_business e hc hl
  refine ⟨h0, withRetryableTransaction_first_error work N e hN hw h0,
    by decide, by decide, by decide, by decide, ?_⟩
  intro e' hc'
  simp [isRetryableError, hc']
  exact Or.inl (by decide)

theorem retry_terminal_business_witness :
    isRetryableError taskNotFoundError = false
    ∧ withRetryableTransaction
        (fun _ => (Except.error taskNotFoundError : Except JsError Nat)) 3 =
        { outcome := .error (.err taskNotFoundError), attempts := 1, delays := [] } := by
  have h := retry_terminal_business
    (fun _ => (Except.error taskNotFoundError : Except JsError Nat)) 3
    taskNotFoundError rfl rfl rfl (by norm_num)
  exact ⟨h.1, h.2.1⟩

/-- C3 counterexample: a duplicate-key failure (MongoDB code 11000) is
classified retryable, and a unit of work failing with it on attempt 1 is
retried rather than having the failure propagate on first occurrence. -/
theorem duplicate_key_retried :
    isRetryableError duplicateKeyError = true
    ∧ withRetryableTransaction dupThenOkWork 3 =
        { outcome := .ok 42, attempts := 2, delays := [200] } := by
  exact ⟨by decide, by rfl⟩

theorem backoffDelays_eq (k : Nat) :
    ∀ a, backoffDelays a k = (List.range k).map (fun i => 2 ^ (a + i) * 100) := by
  induction k with
  | zero =>
    intro a
    simp [backoffDelays]
  | succ k ih =>
    intro a
    rw [show backoffDelays a (k + 1) = 2 ^ a * 100 :: backoffDelays (a + 1) k from rfl,
      ih (a + 1), List.range_succ_eq_map, List.map_cons, List.map_map]
    refine congrArg₂ List.cons (by norm_num) ?_
    apply List.map_congr_left
    intro i _
    have hi : a + 1 + i = a + (i + 1) := by omega
    simp [Function.comp, Nat.succ_eq_add_one, hi]

theorem retryLoop_then_ok {α : Type} (work : Nat → Except JsError α)
    (m : Nat) (err : Nat → JsError) (r : α) :
    ∀ (k a fuel : Nat) (l : Option JsError), k < fuel → a + k ≤ m →
      (∀ i, a ≤ i → i < a + k →
        work i = .error (err i) ∧ isRetryableError (err i) = true) →
      work (a + k) = .ok r →
      retryLoop work m fuel a l =
        { outcome := .ok r, attempts := a + k, delays := backoffDelays a k } := by
  intro k
  induction k with
  | zero =>
    intro a fuel l hfuel hle hfail hok
    obtain ⟨f, rfl⟩ : ∃ f, fuel = f + 1 := ⟨fuel - 1, by omega⟩
    simpa [backoffDelays] using
      retryLoop_ok work m f a l r (by omega) (by simpa using hok)
  | succ k ih =>
    intro a fuel l hfuel hle hfail hok
    obtain ⟨f, rfl⟩ : ∃ f, fuel = f + 1 := ⟨fuel - 1, by omega⟩
    have hwa := hfail a le_rfl (by omega)
    rw [retryLoop_retry work m f a l (err a) (by omega) hwa.1 hwa.2 (by omega)]
    rw [ih (a + 1) f (some (err a)) (by omega) (by omega)
      (fun i h1 h2 => hfail i (by omega) (by omega))
      (by rw [show a + 1 + k = a + (k + 1) from by omega]; exact hok)]
    rw [(by omega : a + (k + 1) = a + 1 + k)]
    rfl

theorem retryLoop_exhaust {α : Type} (work : Nat → Except JsError α)
    (m : Nat) (err : Nat → JsError) :
    ∀ (k a fuel : Nat) (l : Option JsError), k < fuel → a + k = m →
      (∀ i, a ≤ i → i ≤ m →
        work i = .error (err i) ∧ isRetryableError (err i) = true) →
      retryLoop work m fuel a l =
        { outcome := .error (.err (err m)), attempts := m,
          delays := backoffDelays a k } := by
  intro k
  induction k with
  | zero =>
    intro a fuel l hfuel ham hfail
    obtain ⟨f, rfl⟩ : ∃ f, fuel = f + 1 := ⟨fuel - 1, by omega⟩
    obtain rfl : a = m := by omega
    have hw := hfail a le_rfl le_rfl
    simpa [backoffDelays] using
      retryLoop_stop work a f a l (err a) le_rfl hw.1 (Or.inr le_rfl)
  | succ k ih =>
    intro a fuel l hfuel ham hfail
    obtain ⟨f, rfl⟩ : ∃ f, fuel = f + 1 := ⟨fuel - 1, by omega⟩
    have hwa := hfail a le_rfl (by omega)
    rw [retryLoop_retry work m f a l (err a) (by omega) hwa.1 hwa.2 (by omega)]
    rw [ih (a + 1) f (some (err a)) (by omega) (by omega)
      (fun i h1 h2 => hfail i (by omega) h2)]
    rfl

/-- C4 (amended): under withRetryableTransaction with maxRetries N, a unit
of work failing retryably on its first k attempts and succeeding on attempt
k+1 returns the success result after exactly k retries, having slept the
exponential backoff schedule of 2 to the attempt times 100 milliseconds
between attempts; a unit of work failing retryably on every attempt stops
after attempt N and surfaces the last underlying error itself — no
distinct transaction-exhausted failure wraps it. -/
theorem retry_executor {α : Type} (work : Nat → Except JsError α)
    (N k : Nat) (r : α) (err : Nat → JsError) :
    ((∀ i, 1 ≤ i → i ≤ k →
        work i = .error (err i) ∧ isRetryableError (err i) = true) →
      work (k + 1) = .ok r → k < N →
      withRetryableTransaction work N =
        { outcome := .ok r, attempts := k + 1,
          delays := (List.range k).map (fun i => 2 ^ (1 + i) * 100) })
    ∧ ((∀ i, 1 ≤ i → i ≤ N →
        work i = .error (err i) ∧ isRetryableError (err i) = true) →
      1 ≤ N →
      withRetryableTransaction work N =
        { outcome := .error (.err (err N)), attempts := N,
          delays := (List.range (N - 1)).map (fun i => 2 ^ (1 + i) * 100) }) := by
  constructor
  · intro hfail hok hkN
    unfold withRetryableTransaction
    rw [retryLoop_then_ok work N err r k 1 (N + 1) none (by omega) (by omega)
      (fun i h1 h2 => hfail i h1 (by omega)) (by rw [Nat.add_comm]; exact hok)]
    rw [backoffDelays_eq k 1, (by omega : 1 + k = k + 1)]
  · intro hfail hN
    unfold withRetryableTransaction
    rw [retryLoop_exhaust work N err (N - 1) 1 (N + 1) none (by omega) (by omega)
      hfail]
    rw [backoffDelays_eq (N - 1) 1]

/-- C4 counterexample: a unit of work that always fails with a retryable
write conflict under maxRetries 3 surfaces, after the third attempt, the
raw write-conflict error itself: the surfaced failure is exactly the last
underlying error, with no distinct transaction-exhausted marker. -/
theorem no_transaction_exhausted_failure :
    (withRetryableTransaction alwaysConflictWork 3).outcome
      = .error (.err writeConflictError)
    ∧ (withRetryableTransaction alwaysConflictWork 3).attempts = 3 := by
  exact ⟨rfl, rfl⟩

theorem retry_executor_witness :
    withRetryableTransaction conflictTwiceWork 3 =
      { outcome := .ok 7, attempts := 3, delays := [200, 400] }
    ∧ withRetryableTransaction alwaysConflictWork 3 =
      { outcome := .error (.err writeConflictError), attempts := 3,
        delays := [200, 400] } := by
  have h1 := (retry_executor conflictTwiceWork 3 2 7 (fun _ => writeConflictError)).1
    (by intro i hi1 hi2; interval_cases i <;> exact ⟨rfl, by decide⟩) rfl (by norm_num)
  have h2 := (retry_executor alwaysConflictWork 3 0 0 (fun _ => writeConflictError)).2
    (fun i _ _ => ⟨rfl, by decide⟩) (by norm_num)
  exact ⟨h1.trans (by rfl), h2.trans (by rfl)⟩

theorem bulkUpdateTasks_of_core_error (store : List Task) (taskIds : List Nat)
    (u : UpdateData) (uid now : Nat) (e : JsError)
    (h : bulkUpdateCore store taskIds u uid now = .error e)
    (hnr : isRetryableError e = false) :
    bulkUpdateTasks store taskIds u uid now =
      { result := .error (.err e), store := store, events := [] } := by
  unfold bulkUpdateTasks
  rw [withRetryableTransaction_first_error
    (fun _ => bulkUpdateCore store taskIds u uid now) 3 e (by norm_num) h hnr]

theorem bulkUpdateTasks_of_core_ok (store : List Task) (taskIds : List Nat)
    (u : UpdateData) (uid now : Nat) (r : BulkUpdateResult) (st : List Task)
    (h : bulkUpdateCore store taskIds u uid now = .ok (r, st)) :
    bulkUpdateTasks store taskIds u uid now =
      { result := .ok r, store := st, events := [] } := by
  unfold bulkUpdateTasks
  rw [withRetryableTransaction_first_ok
    (fun _ => bulkUpdateCore store taskIds u uid now) 3 (r, st) (by norm_num) h]

theorem bulkDeleteTasks_of_core_error (store : List Task) (taskIds : List Nat)
    (uid : Nat) (e : JsError)
    (h : bulkDeleteCore store taskIds uid = .error e)
    (hnr : isRetryableError e = false) :
    bulkDeleteTasks store taskIds uid =
      { result := .error (.err e), store := store, events := [] } := by
  unfold bulkDeleteTasks
  rw [withRetryableTransaction_first_error
    (fun _ => bulkDeleteCore store taskIds uid) 3 e (by norm_num) h hnr]

theorem bulkDeleteTasks_of_core_ok (store : List Task) (taskIds : List Nat)
    (uid : Nat) (r : BulkDeleteResult) (st : List Task)
    (h : bulkDeleteCore store taskIds uid = .ok (r, st)) :
    bulkDeleteTasks store taskIds uid =
      { result := .ok r, store := st, events := [] } := by
  unfold bulkDeleteTasks
  rw [withRetryableTransaction_first_ok
    (fun _ => bulkDeleteCore store taskIds uid) 3 (r, st) (by norm_num) h]

theorem bulkOwnedFilter_nodup_ids (store : List Task) (taskIds : List Nat)
    (uid : Nat) (hnodup : (store.map Task.id).Nodup) :
    ((bulkOwnedFilter store taskIds uid).map Task.id).Nodup :=
  hnodup.sublist ((List.filter_sublist store).map Task.id)

theorem bulkOwnedFilter_mem (store : List Task) (taskIds : List Nat)
    (uid : Nat) {t : Task} (ht : t ∈ bulkOwnedFilter store taskIds uid) :
    t ∈ store ∧ t.id ∈ taskIds ∧ t.user = uid := by
  obtain ⟨hts, htp⟩ := List.mem_filter.1 ht
  simp only [Bool.and_eq_true, beq_iff_eq] at htp
  exact ⟨hts, by simpa using htp.1, htp.2⟩

theorem bulkOwnedFilter_length_lt_of_bad (store : List Task)
    (taskIds : List Nat) (uid : Nat) (hnodup : (store.map Task.id).Nodup)
    (bad : Nat) (hmem : bad ∈ taskIds)
    (hbad : ∀ t ∈ store, t.id = bad → t.user ≠ uid) :
    (bulkOwnedFilter store taskIds uid).length < taskIds.length := by
  classical
  have hids := bulkOwnedFilter_nodup_ids store taskIds uid hnodup
  have hin : ∀ x ∈ (bulkOwnedFilter store taskIds uid).map Task.id,
      x ∈ taskIds.toFinset.erase bad := by
    intro x hx
    obtain ⟨t, ht, rfl⟩ := List.mem_map.1 hx
    obtain ⟨hts, hmemid, hown⟩ := bulkOwnedFilter_mem store taskIds uid ht
    refine Finset.mem_erase.2 ⟨?_, List.mem_toFinset.2 hmemid⟩
    intro heq
    exact hbad t hts heq hown
  have hc1 : (bulkOwnedFilter store taskIds uid).length =
      ((bulkOwnedFilter store taskIds uid).map Task.id).toFinset.card := by
    rw [List.toFinset_card_of_nodup hids, List.length_map]
  have hc2 : ((bulkOwnedFilter store taskIds uid).map Task.id).toFinset ⊆
      taskIds.toFinset.erase bad :=
    fun x hx => hin x (List.mem_toFinset.1 hx)
  have hc3 := Finset.card_le_card hc2
  have hc4 := Finset.card_erase_lt_of_mem (List.mem_toFinset.2 hmem)
  have hc5 := taskIds.toFinset_card_le
  omega

theorem bulkOwnedFilter_length_lt_of_dup (store : List Task)
    (taskIds : List Nat) (uid : Nat) (hnodup : (store.map Task.id).Nodup)
    (hdup : ¬ taskIds.Nodup) :
    (bulkOwnedFilter store taskIds uid).length < taskIds.length := by
  classical
  have hids := bulkOwnedFilter_nodup_ids store taskIds uid hnodup
  have hc1 : (bulkOwnedFilter store taskIds uid).length =
      ((bulkOwnedFilter store taskIds uid).map Task.id).toFinset.card := by
    rw [List.toFinset_card_of_nodup hids, List.length_map]
  have hc2 : ((bulkOwnedFilter store taskIds uid).map Task.id).toFinset ⊆
      taskIds.toFinset := by
    intro x hx
    obtain ⟨t, ht, rfl⟩ := List.mem_map.1 (List.mem_toFinset.1 hx)
    exact List.mem_toFinset.2 (bulkOwnedFilter_mem store taskIds uid ht).2.1
  have hc3 := Finset.card_le_card hc2
  have hc4 : taskIds.toFinset.card < taskIds.length := by
    rw [List.card_toFinset]
    have hsub := List.dedup_sublist taskIds
    have hle := hsub.length_le
    rcases Nat.lt_or_ge taskIds.dedup.length taskIds.length with h | h
    · exact h
    · exact absurd ((hsub.eq_of_length (by omega)) ▸ List.nodup_dedup taskIds) hdup
  omega

theorem bulkUpdateCore_error_of_lt (store : List Task) (taskIds : List Nat)
    (u : UpdateData) (uid now : Nat)
    (h : (bulkOwnedFilter store taskIds uid).length < taskIds.length) :
    bulkUpdateCore store taskIds u uid now = .error someTasksNotFoundError := by
  have hne : ((bulkOwnedFilter store taskIds uid).length != taskIds.length) = true := by
    simp only [bne_iff_ne, ne_eq]
    omega
  simp [bulkUpdateCore, hne]

theorem bulkDeleteCore_error_of_lt (store : List Task) (taskIds : List Nat)
    (uid : Nat)
    (h : (bulkOwnedFilter store taskIds uid).length < taskIds.length) :
    bulkDeleteCore store taskIds uid = .error someTasksNotFoundError := by
  have hne : ((bulkOwnedFilter store taskIds uid).length != taskIds.length) = true := by
    simp only [bne_iff_ne, ne_eq]
    omega
  simp [bulkDeleteCore, hne]

/-- C1: when at least one requested id is absent from the store or owned by
another principal, bulkUpdate and bulkDelete both fail with the single
not-found-or-access-denied failure and leave the store untouched: the
all-or-nothing pre-check rejects the whole batch and no task is modified
or deleted. -/
theorem bulk_all_or_nothing (store : List Task) (taskIds : List Nat)
    (u : UpdateData) (uid now : Nat) (hnodup : (store.map Task.id).Nodup)
    (bad : Nat) (hmem : bad ∈ taskIds)
    (hbad : ∀ t ∈ store, t.id = bad → t.user ≠ uid) :
    bulkUpdateTasks store taskIds u uid now =
      { result := .error (.err someTasksNotFoundError), store := store, events := [] }
    ∧ bulkDeleteTasks store taskIds uid =
      { result := .error (.err someTasksNotFoundError), store := store, events := [] } := by
  have hlt := bulkOwnedFilter_length_lt_of_bad store taskIds uid hnodup bad hmem hbad
  exact ⟨bulkUpdateTasks_of_core_error store taskIds u uid now _
      (bulkUpdateCore_error_of_lt store taskIds u uid now hlt) (by decide),
    bulkDeleteTasks_of_core_error store taskIds uid _
      (bulkDeleteCore_error_of_lt store taskIds uid hlt) (by decide)⟩

theorem bulk_all_or_nothing_witness :
    bulkUpdateTasks sampleStore [1, 2, 3] noUpdate 7 5 =
      { result := .error (.err someTasksNotFoundError), store := sampleStore, events := [] }
    ∧ bulkDeleteTasks sampleStore [1, 2, 3] 7 =
      { result := .error (.err someTasksNotFoundError), store := sampleStore, events := [] } := by
  exact bulk_all_or_nothing sampleStore [1, 2, 3] noUpdate 7 5 (by decide) 3
    (by decide) (by decide)

/-- C10: when the requested id list contains the same id twice, the bulk
operations fail with the ownership failure and apply no effect even though
every listed id exists and is owned by the caller, because the number of
distinct matched documents is compared against the raw length of the id
list. -/
theorem bulk_duplicate_ids_rejected (store : List Task) (taskIds : List Nat)
    (u : UpdateData) (uid now : Nat) (hnodup : (store.map Task.id).Nodup)
    (hdup : ¬ taskIds.Nodup)
    (_hall : ∀ i ∈ taskIds, ∃ t ∈ store, t.id = i ∧ t.user = uid) :
    bulkUpdateTasks store taskIds u uid now =
      { result := .error (.err someTasksNotFoundError), store := store, events := [] }
    ∧ bulkDeleteTasks store taskIds uid =
      { result := .error (.err someTasksNotFoundError), store := store, events := [] } := by
  have hlt := bulkOwnedFilter_length_lt_of_dup store taskIds uid hnodup hdup
  exact ⟨bulkUpdateTasks_of_core_error store taskIds u uid now _
      (bulkUpdateCore_error_of_lt store taskIds u uid now hlt) (by decide),
    bulkDeleteTasks_of_core_error store taskIds uid _
      (bulkDeleteCore_error_of_lt store taskIds uid hlt) (by decide)⟩

theorem bulk_duplicate_ids_rejected_witness :
    bulkUpdateTasks sampleStore [1, 1] noUpdate 7 5 =
      { result := .error (.err someTasksNotFoundError), store := sampleStore, events := [] }
    ∧ bulkDeleteTasks sampleStore [1, 1] 7 =
      { result := .error (.err someTasksNotFoundError), store := sampleStore, events := [] } := by
  refine bulk_duplicate_ids_rejected sampleStore [1, 1] noUpdate 7 5 (by decide)
    (by decide) ?_
  intro i hi
  refine ⟨taskA, by decide, ?_, by decide⟩
  have : i = 1 := by
    rcases List.mem_cons.1 hi with h | h
    · exact h
    · simpa using h
  simp [this, taskA]

theorem completedInv_saveTask_true (t : Task) (now : Nat) :
    completedInv (saveTask true now t) := by
  unfold completedInv saveTask taskPreSaveHook
  rcases ht : t.status <;> rcases hc : t.completedAt <;> simp [ht, hc]

theorem completedInv_saveTask_false (t : Task) (now : Nat)
    (h : completedInv t) : completedInv (saveTask false now t) := by
  unfold completedInv at h ⊢
  unfold saveTask taskPreSaveHook
  simpa using h

theorem completedInv_applyUpdate (u : UpdateData) (t : Task)
    (hmod : statusModifiedBy u t = false) (h : completedInv t) :
    completedInv (applyUpdate u t) := by
  unfold completedInv at h ⊢
  unfold applyUpdate
  rcases hu : u.status with _ | s
  · simpa [hu] using h
  · have hst : s = t.status := by
      unfold statusModifiedBy at hmod
      rw [hu] at hmod
      simpa using hmod
    simpa [hu, hst] using h

theorem completedInv_update_step (u : UpdateData) (t : Task) (now : Nat)
    (h : completedInv t) :
    completedInv (saveTask (statusModifiedBy u t) now (applyUpdate u t)) := by
  rcases hm : statusModifiedBy u t
  · exact completedInv_saveTask_false _ _ (completedInv_applyUpdate u t hm h)
  · exact completedInv_saveTask_true _ _

theorem mem_replaceTask {store : List Task} {taskId : Nat} {t' x : Task}
    (hx : x ∈ replaceTask store taskId t') : x = t' ∨ x ∈ store := by
  obtain ⟨u, hu, heq⟩ := List.mem_map.1 hx
  by_cases hc : u.id = taskId
  · left
    rw [← heq]
    simp [hc]
  · right
    have hc' : (u.id == taskId) = false := by simpa using hc
    rw [← heq]
    simpa [hc'] using hu

/-- C2 (amended): the completed-iff-completedAt invariant is established by
createTask and preserved on every stored document by updateTask and
markTaskAsCompleted, whose writes pass through the save middleware; a bulk
update whose payload carries no status field also preserves it, but
bulkUpdateTasks bypasses the save middleware, so a bulk update that sets
status to or away from completed can break the invariant. -/
theorem completedAt_invariant (store : List Task) (d : CreateData)
    (u : UpdateData) (taskIds : List Nat) (taskId uid newId now : Nat)
    (hstore : ∀ t ∈ store, completedInv t) :
    (∀ t ∈ (createTask store d uid newId now).store, completedInv t)
    ∧ (∀ t ∈ (updateTask store taskId u uid now).store, completedInv t)
    ∧ (∀ t ∈ (markTaskAsCompleted store taskId uid now).store, completedInv t)
    ∧ (u.status = none →
        ∀ t ∈ (bulkUpdateTasks store taskIds u uid now).store, completedInv t) := by
  refine ⟨?_, ?_, ?_, ?_⟩
  · intro t ht
    simp only [createTask, List.mem_append, List.mem_singleton] at ht
    rcases ht with ht | rfl
    · exact hstore t ht
    · exact completedInv_saveTask_true _ _
  · intro t ht
    rcases hfind : findById store taskId with _ | T
    · simp only [updateTask, hfind] at ht
      exact hstore t ht
    · by_cases howner : T.user = uid
      · have hb : T.isOwnedBy uid = true := by simp [Task.isOwnedBy, howner]
        simp only [updateTask, hfind, hb, if_true] at ht
        rcases mem_replaceTask ht with rfl | hmem
        · exact completedInv_update_step u T now (hstore T (findById_mem hfind))
        · exact hstore t hmem
      · have hb : T.isOwnedBy uid = false := by simp [Task.isOwnedBy, howner]
        simp only [updateTask, hfind, hb, Bool.false_eq_true, if_false] at ht
        exact hstore t ht
  · intro t ht
    rcases hfind : findById store taskId with _ | T
    · simp only [markTaskAsCompleted, hfind] at ht
      exact hstore t ht
    · by_cases howner : T.user = uid
      · have hb : T.isOwnedBy uid = true := by simp [Task.isOwnedBy, howner]
        by_cases hdone : T.status = TaskStatus.completed
        · have hd : (T.status == TaskStatus.completed) = true := by simp [hdone]
          simp only [markTaskAsCompleted, hfind, hb, if_true, hd] at ht
          exact hstore t ht
        · have hd : (T.status == TaskStatus.completed) = false := by simp [hdone]
          have hsm : (T.status != TaskStatus.completed) = true := by simp [bne, hd]
          simp only [markTaskAsCompleted, hfind, hb, if_true, hd,
            Bool.false_eq_true, if_false, hsm] at ht
          rcases mem_replaceTask ht with rfl | hmem
          · exact completedInv_saveTask_true _ _
          · exact hstore t hmem
      · have hb : T.isOwnedBy uid = false := by simp [Task.isOwnedBy, howner]
        simp only [markTaskAsCompleted, hfind, hb, Bool.false_eq_true, if_false] at ht
        exact hstore t ht
  · intro hu t ht
    rcases hcore : bulkUpdateCore store taskIds u uid now with e | p
    · have he : e = someTasksNotFoundError := by
        by_cases hb : ((bulkOwnedFilter store taskIds uid).length != taskIds.length) = true
        · simp only [bulkUpdateCore, hb, if_true] at hcore
          exact (Except.error.injEq _ _ ▸ hcore).symm
        · simp [bulkUpdateCore, hb] at hcore
      rw [bulkUpdateTasks_of_core_error store taskIds u uid now e hcore
        (by rw [he]; decide)] at ht
      exact hstore t ht
    · rcases p with ⟨r, st⟩
      rw [bulkUpdateTasks_of_core_ok store taskIds u uid now r st hcore] at ht
      have hst : st = store.map (fun t =>
          if taskIds.contains t.id && t.user == uid then applyBulkUpdate u now t
          else t) := by
        by_cases hb : ((bulkOwnedFilter store taskIds uid).length != taskIds.length) = true
        · simp only [bulkUpdateCore, hb, if_true] at hcore
          exact Except.noConfusion hcore
        · simp only [bulkUpdateCore, hb, Bool.false_eq_true, if_false,
            Except.ok.injEq, Prod.mk.injEq] at hcore
          exact hcore.2.symm
      subst hst
      simp only at ht
      obtain ⟨t0, ht0, heq⟩ := List.mem_map.1 ht
      by_cases hc : (taskIds.contains t0.id && t0.user == uid) = true
      · rw [hc] at heq
        simp only [if_true] at heq
        rw [← heq]
        have h0 := hstore t0 ht0
        unfold completedInv at h0 ⊢
        unfold applyBulkUpdate applyUpdate
        simpa [hu] using h0
      · have hc' : (taskIds.contains t0.id && t0.user == uid) = false := by
          simpa using hc
        rw [hc'] at heq
        simp only [Bool.false_eq_true, if_false] at heq
        rw [← heq]
        exact hstore t0 ht0

/-- C2 counterexample: a bulk update that sets status to completed on a
pending task succeeds, but the stored document ends with status completed
and completedAt still null — the invariant is broken because updateMany
bypasses the save middleware. -/
theorem bulk_update_breaks_invariant :
    (bulkUpdateTasks [taskA] [1] { status := some .completed } 7 5).result =
      .ok { message := "1 tasks updated successfully", modifiedCount := 1,
            taskIds := [1] }
    ∧ (bulkUpdateTasks [taskA] [1] { status := some .completed } 7 5).store =
      [{ taskA with status := .completed, updatedAt := 5 }]
    ∧ ¬ completedInv { taskA with status := .completed, updatedAt := 5 } := by
  exact ⟨rfl, rfl, by decide⟩

theorem completedAt_invariant_witness :
    completedInv { id := 9, user := 7, title := "n", description := "nd",
                   status := .completed, priority := .medium, dueDate := none,
                   completedAt := some 5, tags := [], createdAt := 5,
                   updatedAt := 5 }
    ∧ completedInv { taskA with status := .completed, completedAt := some 5, updatedAt := 5 } := by
  have h := completedAt_invariant sampleStore
    { title := "n", description := "nd", status := .completed } noUpdate
    [1] 1 7 9 5 (by decide)
  exact ⟨h.1 _ (by decide), h.2.2.1 _ (by decide)⟩

theorem bulkUpdateTasks_events (store : List Task) (taskIds : List Nat)
    (u : UpdateData) (uid now : Nat) :
    (bulkUpdateTasks store taskIds u uid now).events = [] := by
  cases h : (withRetryableTransaction
      (fun _ => bulkUpdateCore store taskIds u uid now) 3).outcome with
  | ok p =>
    rcases p with ⟨r, st⟩
    simp [bulkUpdateTasks, h]
  | error e => simp [bulkUpdateTasks, h]

theorem bulkDeleteTasks_events (store : List Task) (taskIds : List Nat)
    (uid : Nat) :
    (bulkDeleteTasks store taskIds uid).events = [] := by
  cases h : (withRetryableTransaction
      (fun _ => bulkDeleteCore store taskIds uid) 3).outcome with
  | ok p =>
    rcases p with ⟨r, st⟩
    simp [bulkDeleteTasks, h]
  | error e => simp [bulkDeleteTasks, h]

/-- C7 (amended): after a successful commit each single-entity mutation
emits exactly one event of the corresponding kind to the owning principal's
private room, and the room fan-out delivers an event to exactly the owner's
connected sessions and to no one else; the bulk mutations, however, emit no
event at all, on success or failure. -/
theorem event_fanout (store : List Task) (d : CreateData) (u : UpdateData)
    (taskIds : List Nat) (taskId uid newId now : Nat) :
    (createTask store d uid newId now).events =
      [{ name := .task_created, room := uid }]
    ∧ (∀ r, (updateTask store taskId u uid now).result = .ok r →
        (updateTask store taskId u uid now).events =
          [{ name := .task_updated, room := uid }])
    ∧ (∀ r, (deleteTask store taskId uid).result = .ok r →
        (deleteTask store taskId uid).events =
          [{ name := .task_deleted, room := uid }])
    ∧ (∀ r, (markTaskAsCompleted store taskId uid now).result = .ok r →
        (markTaskAsCompleted store taskId uid now).events =
          [{ name := .task_updated, room := uid }])
    ∧ (bulkUpdateTasks store taskIds u uid now).events = []
    ∧ (bulkDeleteTasks store taskIds uid).events = []
    ∧ (∀ sessions : List Session, (sessions.map Session.sid).Nodup →
        ∀ e : Event, ∀ s ∈ sessions,
          (s.sid ∈ deliveredSessions sessions e ↔ s.userId = e.room)) := by
  refine ⟨rfl, ?_, ?_, ?_, bulkUpdateTasks_events store taskIds u uid now,
    bulkDeleteTasks_events store taskIds uid, ?_⟩
  · intro r h
    rcases hfind : findById store taskId with _ | T
    · simp [updateTask, hfind] at h
    · by_cases howner : T.user = uid
      · have hb : T.isOwnedBy uid = true := by simp [Task.isOwnedBy, howner]
        simp [updateTask, hfind, hb]
      · have hb : T.isOwnedBy uid = false := by simp [Task.isOwnedBy, howner]
        simp [updateTask, hfind, hb] at h
  · intro r h
    rcases hfind : findById store taskId with _ | T
    · simp [deleteTask, hfind] at h
    · by_cases howner : T.user = uid
      · have hb : T.isOwnedBy uid = true := by simp [Task.isOwnedBy, howner]
        simp [deleteTask, hfind, hb]
      · have hb : T.isOwnedBy uid = false := by simp [Task.isOwnedBy, howner]
        simp [deleteTask, hfind, hb] at h
  · intro r h
    rcases hfind : findById store taskId with _ | T
    · simp [markTaskAsCompleted, hfind] at h
    · by_cases howner : T.user = uid
      · have hb : T.isOwnedBy uid = true := by simp [Task.isOwnedBy, howner]
        by_cases hdone : T.status = TaskStatus.completed
        · have hd : (T.status == TaskStatus.completed) = true := by simp [hdone]
          simp [markTaskAsCompleted, hfind, hb, hd] at h
        · have hd : (T.status == TaskStatus.completed) = false := by simp [hdone]
          simp [markTaskAsCompleted, hfind, hb, hd]
      · have hb : T.isOwnedBy uid = false := by simp [Task.isOwnedBy, howner]
        simp [markTaskAsCompleted, hfind, hb] at h
  · intro sessions hnodup e s hs
    constructor
    · intro hmem
      obtain ⟨s', hs', heq⟩ := List.mem_map.1 hmem
      obtain ⟨hs'mem, hs'room⟩ := List.mem_filter.1 hs'
      have hss : s' = s := List.inj_on_of_nodup_map hnodup hs'mem hs heq
      rw [← hss]
      simpa using hs'room
    · intro hroom
      exact List.mem_map.2 ⟨s, List.mem_filter.2 ⟨hs, by simp [hroom]⟩, rfl⟩

/-- C7 counterexample: a bulk delete of two owned tasks succeeds and
commits, yet publishes zero events — not exactly one — to the owner's
channel. -/
theorem bulk_delete_emits_no_event :
    (bulkDeleteTasks sampleStore [1, 2] 7).result =
      .ok { message := "2 tasks deleted successfully", deletedCount := 2,
            deletedTasks := [(1, "alpha", .pending), (2, "beta", .pending)] }
    ∧ (bulkDeleteTasks sampleStore [1, 2] 7).events = [] := by
  exact ⟨rfl, rfl⟩

theorem event_fanout_witness :
    (markTaskAsCompleted sampleStore 1 7 5).events =
      [{ name := .task_updated, room := 7 }]
    ∧ (createTask sampleStore { title := "n", description := "d" } 7 9 5).events =
      [{ name := .task_created, room := 7 }]
    ∧ (42 ∈ deliveredSessions [{ sid := 42, userId := 7 }, { sid := 43, userId := 8 }]
          { name := .task_created, room := 7 } ↔ (7 : Nat) = 7) := by
  have h := event_fanout sampleStore { title := "n", description := "d" }
    noUpdate [1] 1 7 9 5
  refine ⟨h.2.2.2.1 { taskA with status := .completed, completedAt := some 5, updatedAt := 5 } rfl,
    h.1, ?_⟩
  exact h.2.2.2.2.2.2 [{ sid := 42, userId := 7 }, { sid := 43, userId := 8 }]
    (by decide) { name := .task_created, room := 7 } { sid := 42, userId := 7 }
    (by decide)

/-- C9: the list operation treats page as 1-based with skip (page-1)×limit,
reports the matching total, and pages = ceil(total/limit) — characterized
as the least multiple bound total ≤ pages·limit < total + limit — while the
returned slice has min(limit, total - skip) items; the validation layer
bounds limit to [1,100] before the core runs. -/
theorem list_pagination (store : List Task) (uid : Nat) (o : QueryOptions)
    (hlim : limitBoundOk o.limit = true) :
    (getTasksByUser store uid o).pagination.total =
      (store.filter (matchesQuery uid o)).length
    ∧ (getTasksByUser store uid o).pagination.current = o.page
    ∧ (getTasksByUser store uid o).pagination.limit = o.limit
    ∧ (getTasksByUser store uid o).pagination.pages =
      ceilDiv (store.filter (matchesQuery uid o)).length o.limit
    ∧ (store.filter (matchesQuery uid o)).length ≤
      (getTasksByUser store uid o).pagination.pages * o.limit
    ∧ (getTasksByUser store uid o).pagination.pages * o.limit <
      (store.filter (matchesQuery uid o)).length + o.limit
    ∧ (getTasksByUser store uid o).tasks.length =
      min o.limit
        ((store.filter (matchesQuery uid o)).length - (o.page - 1) * o.limit) := by
  have hl : 0 < o.limit := by
    simp [limitBoundOk] at hlim
    exact hlim.1
  have hkey : ∀ T : Nat, T ≤ ceilDiv T o.limit * o.limit
      ∧ ceilDiv T o.limit * o.limit < T + o.limit := by
    intro T
    unfold ceilDiv
    have hdm := Nat.div_add_mod (T + o.limit - 1) o.limit
    have hmod := Nat.mod_lt (T + o.limit - 1) hl
    constructor
    · rw [Nat.mul_comm]
      omega
    · rw [Nat.mul_comm]
      omega
  refine ⟨rfl, rfl, rfl, rfl,
    (hkey (store.filter (matchesQuery uid o)).length).1,
    (hkey (store.filter (matchesQuery uid o)).length).2, ?_⟩
  simp [getTasksByUser]

theorem list_pagination_witness :
    (getTasksByUser store25 7 (pageOpts 1)).tasks.length = 10
    ∧ (getTasksByUser store25 7 (pageOpts 2)).tasks.length = 10
    ∧ (getTasksByUser store25 7 (pageOpts 3)).tasks.length = 5
    ∧ (getTasksByUser store25 7 (pageOpts 3)).pagination.pages = 3 := by
  have h1 := (list_pagination store25 7 (pageOpts 1) (by decide)).2.2.2.2.2.2
  have h2 := (list_pagination store25 7 (pageOpts 2) (by decide)).2.2.2.2.2.2
  have h3 := list_pagination store25 7 (pageOpts 3) (by decide)
  have ht1 : (store25.filter (matchesQuery 7 (pageOpts 1))).length = 25 := by decide
  have ht2 : (store25.filter (matchesQuery 7 (pageOpts 2))).length = 25 := by decide
  have ht3 : (store25.filter (matchesQuery 7 (pageOpts 3))).length = 25 := by decide
  rw [ht1] at h1
  rw [ht2] at h2
  have h4 := h3.2.2.2.2.2.2
  rw [ht3] at h4
  have h5 := h3.2.2.2.1
  rw [ht3] at h5
  refine ⟨by simpa using h1, by simpa using h2, by simpa using h4, ?_⟩
  rw [h5]
  decide

end TmBackend

